import Mathlib

/-!
Shallow embedding of the number-formatting module of the Sugipq repository
(source file `src/unnamed/part_000`): the functions `formatoNumero`,
`formatoMoneda`, `formatoPorcentaje`, `formatoCompacto` and the declarative
pass `formatearElementos`, together with the host primitives they invoke
(`parseFloat`, `parseInt`, `Number.prototype.toLocaleString('es-CO', …)`,
`Number.prototype.toFixed`, `Number.prototype.toString`).

Numeric values are modelled as rationals `ℚ` (every finite JS double is a
rational; the repository only feeds small display magnitudes to these
functions, so double-rounding artifacts are not modelled).  Fallible host
calls are modelled with `Except`; the `try`/`catch` blocks of the source
become `match` on the `Except`.
-/

namespace Sugipq

/-! ### Decimal digit strings -/

/-- The character for a decimal digit value. -/
def digitToChar (d : ℕ) : Char := Char.ofNat (48 + d)

/-- Little-endian base-10 digits, driven by explicit fuel so the
definition is structurally recursive. -/
def natDigitsAux : ℕ → ℕ → List ℕ
  | 0, _ => []
  | _ + 1, 0 => []
  | fuel + 1, n + 1 => (n + 1) % 10 :: natDigitsAux fuel ((n + 1) / 10)

/-- Little-endian base-10 digits of `n` (equal to `Nat.digits 10 n`). -/
def natDigits (n : ℕ) : List ℕ := natDigitsAux n n

/-- The decimal digit string of a natural number, most significant digit
first (the rendering used by `toString` on numbers). -/
def natStr (n : ℕ) : String :=
  if n = 0 then "0" else String.mk (((natDigits n).map digitToChar).reverse)

/-- Left-pad a string with `'0'` up to length `k` (used for fixed-width
fraction parts). -/
def padLeftZeros (k : ℕ) (s : String) : String :=
  String.mk (List.replicate (k - s.length) '0') ++ s

/-! ### Thousands grouping

`toLocaleString('es-CO')` groups integer digits in threes with `'.'`.
Per CLDR, Spanish locales carry `minimumGroupingDigits = 2`: the grouping
separator is used only when the integer part has at least
`groupingSize + minimumGroupingDigits = 5` digits, so `1000` renders as
`"1000"` while `10000` renders as `"10.000"`. -/

/-- Split a list whose length is divisible by 3 into consecutive blocks
of three. -/
def chunks3 : List Char → List (List Char)
  | a :: b :: c :: rest => [a, b, c] :: chunks3 rest
  | _ => []

/-- Size of the most significant group when grouping `n` digits in threes
from the right: `n % 3`, or 3 when `n` is a positive multiple of 3. -/
def headLen (n : ℕ) : ℕ := if n % 3 = 0 then 3 else n % 3

/-- The digit clusters of an integer digit list, most significant group
first: the leading group has `headLen` digits, the rest have three each. -/
def clusters (l : List Char) : List (List Char) :=
  l.take (headLen l.length) :: chunks3 (l.drop (headLen l.length))

/-- Join character blocks with a single separator character between them. -/
def joinSep (sep : Char) : List (List Char) → List Char
  | [] => []
  | c :: [] => c
  | c :: c2 :: rest => c ++ sep :: joinSep sep (c2 :: rest)

/-! ### `toLocaleString('es-CO', {minimumFractionDigits, maximumFractionDigits})` -/

/-- Core of `Number.prototype.toLocaleString('es-CO', …)` with
`minimumFractionDigits = maximumFractionDigits = d` (the only shape the
source uses): round the magnitude to `d` fraction digits half-away-from-zero
(ECMA-402 default rounding mode `halfExpand`), group the integer digits in
threes with `'.'` when there are at least five of them (CLDR Spanish
`minimumGroupingDigits = 2`), use `','` as the decimal separator, and
prefix `'-'` for negative inputs. -/
def esCOFormat (q : ℚ) (d : ℕ) : String :=
  let m : ℕ := (⌊|q| * 10 ^ d + 1 / 2⌋).toNat
  let intStr := natStr (m / 10 ^ d)
  let grouped :=
    if 5 ≤ intStr.length then String.mk (joinSep '.' (clusters intStr.data)) else intStr
  let sgn := if q < 0 then "-" else ""
  if d = 0 then sgn ++ grouped
  else sgn ++ grouped ++ "," ++ padLeftZeros d (natStr (m % 10 ^ d))

/-- `Number.prototype.toLocaleString('es-CO', {minimumFractionDigits,
maximumFractionDigits})`.  ECMA-402 validates both options against the
range `[0, 100]` (and `maximumFractionDigits ≥ minimumFractionDigits`);
out-of-range values raise a `RangeError`, modelled by `Except.error`. -/
def toLocaleStringEsCO (q : ℚ) (minFD maxFD : ℤ) : Except Unit String :=
  if minFD < 0 ∨ 100 < minFD ∨ maxFD < minFD ∨ 100 < maxFD then .error ()
  else .ok (esCOFormat q maxFD.toNat)

/-! ### `toFixed` and `toString` -/

/-- `Number.prototype.toFixed(f)`: the sign is peeled off first, the
magnitude is rounded to `f` fraction digits with ties to the larger
integer, and the decimal point is `'.'` with no grouping. -/
def toFixedQ (q : ℚ) (f : ℕ) : String :=
  let s := if q < 0 then "-" else ""
  let n : ℕ := (⌊|q| * 10 ^ f + 1 / 2⌋).toNat
  if f = 0 then s ++ natStr n
  else s ++ natStr (n / 10 ^ f) ++ "." ++ padLeftZeros f (natStr (n % 10 ^ f))

/-- Fuel-driven multiplicity of `p` in `n` (largest `e` with `p ^ e ∣ n`). -/
def pexpAux (p : ℕ) : ℕ → ℕ → ℕ
  | 0, _ => 0
  | fuel + 1, n => if 2 ≤ p ∧ n ≠ 0 ∧ n % p = 0 then pexpAux p fuel (n / p) + 1 else 0

/-- Largest `e` with `p ^ e ∣ n` (for `2 ≤ p`, `n ≠ 0`). -/
def pexp (p n : ℕ) : ℕ := pexpAux p n n

/-- `Number.prototype.toString()` (radix 10) on the modelled rationals.
JS doubles are dyadic, so their exact decimal expansion terminates; the
model renders that exact expansion (sign, integer digits, and — for
non-integers — a `'.'` followed by the fraction digits with no trailing
zeros).  Exponent notation (|x| ≥ 1e21 or |x| < 1e-6) is outside the
magnitudes this repository displays and is not modelled; the final branch
for non-terminating rationals is unreachable from parsed inputs. -/
def numToString (q : ℚ) : String :=
  let sgn := if q < 0 then "-" else ""
  if q.den = 1 then sgn ++ natStr q.num.natAbs
  else
    let k := max (pexp 2 q.den) (pexp 5 q.den)
    if (|q| * 10 ^ k).den = 1 then
      let m := (|q| * 10 ^ k).num.toNat
      sgn ++ natStr (m / 10 ^ k) ++ "." ++ padLeftZeros k (natStr (m % 10 ^ k))
    else sgn ++ natStr q.num.natAbs ++ "/" ++ natStr q.den

/-! ### JS values and numeric coercion -/

/-- The JS values the formatting entry points receive: a (finite) number,
a string, `null`, or `undefined`/absence. -/
inductive JSVal where
  | num (q : ℚ)
  | str (s : String)
  | nullV
  | undefV
deriving DecidableEq

/-- Numeric value of a digit list, most significant first. -/
def digitsToNat (ds : List Char) : ℕ :=
  ds.foldl (fun a c => 10 * a + (c.toNat - 48)) 0

/-- Power of ten with an integer exponent, as a rational. -/
def pow10Z (e : ℤ) : ℚ :=
  if 0 ≤ e then ((10 : ℚ) ^ e.toNat) else ((10 : ℚ) ^ (-e).toNat)⁻¹

/-- Exponent digits after `e`/`E` and an optional sign: the numeric value
of the leading digit run (`0` when there are no digits, in which case
`parseFloat` stops before the `e`, which has the same numeric effect). -/
def expDigitsVal (cs : List Char) : ℤ :=
  (digitsToNat (cs.takeWhile Char.isDigit) : ℤ)

/-- The exponent contributed by an `ExponentPart` at the head of `cs`
(zero when none is present). -/
def parseExpPart (cs : List Char) : ℤ :=
  match cs with
  | c :: rest =>
    if c = 'e' ∨ c = 'E' then
      match rest with
      | '+' :: r2 => expDigitsVal r2
      | '-' :: r2 => - expDigitsVal r2
      | r2 => expDigitsVal r2
    else 0
  | [] => 0

/-- The unsigned mantissa at the head of `cs`: an integer digit run, an
integer digit run followed by a point and an optional fraction run, or a
point followed by a fraction run; `none` when no digit is present
(→ `NaN`).  Returns the mantissa value and the remaining characters. -/
def parseMantissa (cs : List Char) : Option (ℚ × List Char) :=
  let p1 := cs.span Char.isDigit
  match p1.2 with
  | '.' :: r2 =>
    let p2 := r2.span Char.isDigit
    if p1.1 = [] ∧ p2.1 = [] then none
    else some ((digitsToNat p1.1 : ℚ) + (digitsToNat p2.1 : ℚ) / 10 ^ p2.1.length, p2.2)
  | _ => if p1.1 = [] then none else some ((digitsToNat p1.1 : ℚ), p1.2)

/-- `parseFloat` on a character list: skip leading whitespace, read an
optional sign, then the longest `StrDecimalLiteral` prefix (mantissa and
optional exponent); trailing characters are ignored.  `none` models `NaN`.
(The `Infinity` production yields a non-finite value outside the rational
model and is not modelled.) -/
def parseFloatChars (cs0 : List Char) : Option ℚ :=
  let cs := cs0.dropWhile Char.isWhitespace
  let sp : Bool × List Char :=
    match cs with
    | '-' :: r => (true, r)
    | '+' :: r => (false, r)
    | r => (false, r)
  match parseMantissa sp.2 with
  | none => none
  | some (m, rest) =>
    let v := m * pow10Z (parseExpPart rest)
    some (if sp.1 then -v else v)

/-- `parseFloat` applied to a JS value: the argument is first converted
with `ToString`.  A finite number round-trips to itself; `null` and
`undefined` stringify to `"null"`/`"undefined"`, which parse to `NaN`. -/
def parseFloatJS : JSVal → Option ℚ
  | .num q => some q
  | .str s => parseFloatChars s.data
  | .nullV => none
  | .undefV => none

/-- The coercion `numero = parseFloat(numero) || 0` used by every
formatting operation: `NaN` (and `±0`, which is already `0` in `ℚ`)
falls back to `0`. -/
def coerceNum (v : JSVal) : ℚ := (parseFloatJS v).getD 0

/-- Hexadecimal digit predicate for `parseInt`'s `0x` form. -/
def isHexDigit (c : Char) : Bool :=
  c.isDigit ∨ ('a' ≤ c ∧ c ≤ 'f') ∨ ('A' ≤ c ∧ c ≤ 'F')

/-- Value of a hexadecimal digit character. -/
def hexDigitVal (c : Char) : ℕ :=
  if c.isDigit then c.toNat - 48
  else if 'a' ≤ c ∧ c ≤ 'f' then c.toNat - 87
  else c.toNat - 55

/-- Numeric value of a hex digit list, most significant first. -/
def hexDigitsToNat (ds : List Char) : ℕ :=
  ds.foldl (fun a c => 16 * a + hexDigitVal c) 0

/-- `parseInt` with no radix argument: skip whitespace, optional sign,
then either a `0x`/`0X` hexadecimal digit run or a decimal digit run;
no digits means `NaN` (`none`). -/
def parseIntChars (cs0 : List Char) : Option ℤ :=
  let cs := cs0.dropWhile Char.isWhitespace
  let sp : Bool × List Char :=
    match cs with
    | '-' :: r => (true, r)
    | '+' :: r => (false, r)
    | r => (false, r)
  let core : Option ℕ :=
    match sp.2 with
    | '0' :: x :: r =>
      if x = 'x' ∨ x = 'X' then
        let ds := r.takeWhile isHexDigit
        if ds = [] then none else some (hexDigitsToNat ds)
      else some (digitsToNat (('0' :: x :: r).takeWhile Char.isDigit))
    | r =>
      let ds := r.takeWhile Char.isDigit
      if ds = [] then none else some (digitsToNat ds)
  core.map (fun n => if sp.1 then -(n : ℤ) else (n : ℤ))

/-- `parseInt(elemento.getAttribute('data-decimales'))`: `getAttribute`
returns `null` for a missing attribute, and `parseInt(null)` parses the
string `"null"`, which is `NaN`. -/
def parseIntAttr : Option String → Option ℤ
  | none => none
  | some s => parseIntChars s.data

/-! ### The four formatting operations (source lines 12–87) -/

/-- `formatoNumero(numero, decimales = 0)` (source lines 12–32): coerce,
then `toLocaleString('es-CO', …)` with `decimales` fraction digits when
`decimales > 0` and zero fraction digits otherwise; a thrown `RangeError`
is caught and `'0'` returned. -/
def formatoNumero (numero : JSVal) (decimales : ℤ) : String :=
  let n := coerceNum numero
  let r := if 0 < decimales then toLocaleStringEsCO n decimales decimales
           else toLocaleStringEsCO n 0 0
  match r with
  | .ok s => s
  | .error _ => "0"

/-- `formatoMoneda(numero, simbolo = '$', decimales = 0)` (source lines
41–44): the symbol concatenated directly before `formatoNumero`. -/
def formatoMoneda (numero : JSVal) (simbolo : String) (decimales : ℤ) : String :=
  simbolo ++ formatoNumero numero decimales

/-- `formatoPorcentaje(numero, decimales = 1)` (source lines 52–65):
coerce; multiply by 100 exactly when the coerced value is `< 1`; format
with `decimales` fraction digits and append `'%'`; a thrown `RangeError`
is caught and `'0%'` returned. -/
def formatoPorcentaje (numero : JSVal) (decimales : ℤ) : String :=
  let n := coerceNum numero
  let porcentaje := if n < 1 then n * 100 else n
  match toLocaleStringEsCO porcentaje decimales decimales with
  | .ok s => s ++ "%"
  | .error _ => "0%"

/-- `formatoCompacto(numero)` (source lines 72–87): thresholds checked
from largest to smallest, `toFixed(1)` plus suffix for the three suffixed
ranges, plain `toString` below 1000.  (The source's `try`/`catch` guard is
dead here: none of the invoked primitives can throw.) -/
def formatoCompacto (numero : JSVal) : String :=
  let n := coerceNum numero
  if 1000000000 ≤ n then toFixedQ (n / 1000000000) 1 ++ "B"
  else if 1000000 ≤ n then toFixedQ (n / 1000000) 1 ++ "M"
  else if 1000 ≤ n then toFixedQ (n / 1000) 1 ++ "K"
  else numToString n

/-! ### The declarative pass `formatearElementos` (source lines 161–183) -/

/-- An element matched by `querySelectorAll('[data-format]')`: its
`data-format` value, its optional `data-decimales` and `data-simbolo`
attributes (`none` = attribute absent, i.e. `getAttribute` returns
`null`), and its text content. -/
structure Element where
  dataFormat : String
  dataDecimales : Option String
  dataSimbolo : Option String
  textContent : String
deriving DecidableEq

/-- `const valor = parseFloat(elemento.textContent) || 0` (line 164). -/
def valorDe (e : Element) : ℚ := (parseFloatChars e.textContent.data).getD 0

/-- `const decimales = parseInt(elemento.getAttribute('data-decimales')) || 0`
(line 165): the fallback is `0` for every mode. -/
def decimalesDe (e : Element) : ℤ := (parseIntAttr e.dataDecimales).getD 0

/-- `const simbolo = elemento.getAttribute('data-simbolo') || '$'`
(line 172): `null` and the empty string are falsy, so both fall back
to `"$"`. -/
def simboloDe (e : Element) : String :=
  match e.dataSimbolo with
  | none => "$"
  | some s => if s = "" then "$" else s

/-- The body of the `forEach` callback (source lines 163–181): dispatch
on `data-format` and overwrite the text content; the `switch` has no
`default`, so unrecognized modes leave the element untouched. -/
def formatearElemento (e : Element) : Element :=
  if e.dataFormat = "numero" then
    { e with textContent := formatoNumero (.num (valorDe e)) (decimalesDe e) }
  else if e.dataFormat = "moneda" then
    { e with textContent := formatoMoneda (.num (valorDe e)) (simboloDe e) (decimalesDe e) }
  else if e.dataFormat = "porcentaje" then
    { e with textContent := formatoPorcentaje (.num (valorDe e)) (decimalesDe e) }
  else if e.dataFormat = "compacto" then
    { e with textContent := formatoCompacto (.num (valorDe e)) }
  else e

/-- `formatearElementos()` (source lines 161–183): the elements carrying
`data-format`, in document order, each updated by the callback. -/
def formatearElementos (es : List Element) : List Element :=
  es.map formatearElemento

/-! ### Formal reading of the claimed output shape of `formatoNumero` -/

/-- Every character of the list is a decimal digit. -/
def allDigits (l : List Char) : Prop := ∀ c ∈ l, c.isDigit = true

/-- The output shape asserted by the spec for `formatoNumero(v, d)`:
an optional minus sign, then integer digit clusters joined by `'.'` with
the most significant cluster of 1–3 digits and every following cluster of
exactly 3, then (for `d > 0`) a `','` followed by exactly `d` digits; the
part before the `','` contains no `','`. -/
def groupedClaimC3 (s : String) (d : ℕ) : Prop :=
  ∃ sgn cls frac,
    s.data = sgn ++ joinSep '.' cls ++ frac ∧
    (sgn = [] ∨ sgn = ['-']) ∧
    cls ≠ [] ∧ (∀ c ∈ cls, allDigits c) ∧
    1 ≤ (cls.headD []).length ∧ (cls.headD []).length ≤ 3 ∧
    (∀ c ∈ cls.tail, c.length = 3) ∧
    (∀ c ∈ sgn ++ joinSep '.' cls, c ≠ ',') ∧
    (if d = 0 then frac = [] else ∃ ds, frac = ',' :: ds ∧ allDigits ds ∧ ds.length = d)

/-- The output shape `formatoNumero(v, d)` actually has for `0 ≤ d ≤ 100`:
as in `groupedClaimC3`, except that an integer part of four or fewer
digits is a single ungrouped cluster (es-CO `minimumGroupingDigits = 2`);
grouping in threes applies only from five integer digits up. -/
def groupedAmendedC3 (s : String) (d : ℕ) : Prop :=
  ∃ sgn cls frac,
    s.data = sgn ++ joinSep '.' cls ++ frac ∧
    (sgn = [] ∨ sgn = ['-']) ∧
    cls ≠ [] ∧ (∀ c ∈ cls, allDigits c) ∧
    ((∃ c, cls = [c] ∧ 1 ≤ c.length ∧ c.length ≤ 4) ∨
     (5 ≤ (cls.map List.length).sum ∧ 1 ≤ (cls.headD []).length ∧
      (cls.headD []).length ≤ 3 ∧ ∀ c ∈ cls.tail, c.length = 3)) ∧
    (∀ c ∈ sgn ++ joinSep '.' cls, c ≠ ',') ∧
    (if d = 0 then frac = [] else ∃ ds, frac = ',' :: ds ∧ allDigits ds ∧ ds.length = d)

/-! ### Helper lemmas -/

theorem coerceNum_num (q : ℚ) : coerceNum (.num q) = q := rfl

theorem formatoNumero_congr {v w : JSVal} (h : coerceNum v = coerceNum w) (d : ℤ) :
    formatoNumero v d = formatoNumero w d := by
  simp only [formatoNumero, h]

theorem formatoMoneda_congr {v w : JSVal} (h : coerceNum v = coerceNum w)
    (s : String) (d : ℤ) : formatoMoneda v s d = formatoMoneda w s d := by
  simp only [formatoMoneda, formatoNumero_congr h]

theorem formatoPorcentaje_congr {v w : JSVal} (h : coerceNum v = coerceNum w) (d : ℤ) :
    formatoPorcentaje v d = formatoPorcentaje w d := by
  simp only [formatoPorcentaje, h]

theorem formatoCompacto_congr {v w : JSVal} (h : coerceNum v = coerceNum w) :
    formatoCompacto v = formatoCompacto w := by
  simp only [formatoCompacto, h]

theorem coerceNum_of_nonNumeric {v : JSVal} (h : parseFloatJS v = none) :
    coerceNum v = coerceNum (.num 0) := by
  simp only [coerceNum, h]; rfl

/-! ### Claims -/

/-- C2 counterexample: a non-numeric input under the default options
renders through `formatoPorcentaje` as `"0,0%"` (its default is one
decimal place, and `0` with one forced fraction digit is `"0,0"`), not
the claimed `"0%"`. -/
theorem c2_counterexample :
    formatoPorcentaje (.str "abc") 1 = "0,0%" ∧ ("0,0%" : String) ≠ "0%" := by
  with_unfolding_all decide

/-- C2 (amended): for every non-numeric or missing input, with default
options, `formatoNumero` returns `"0"`, `formatoMoneda` returns `"$0"`,
and `formatoPorcentaje` returns `"0,0%"` — no error message, no blank
output (and, by totality of the embedding, no exception). -/
theorem c2_fail_soft_defaults :
    ∀ (v : JSVal), parseFloatJS v = none →
      formatoNumero v 0 = "0" ∧ formatoMoneda v "$" 0 = "$0" ∧
      formatoPorcentaje v 1 = "0,0%" := by
  intro v hv
  have h := coerceNum_of_nonNumeric hv
  refine ⟨?_, ?_, ?_⟩
  · rw [formatoNumero_congr h]; with_unfolding_all decide
  · rw [formatoMoneda_congr h]; with_unfolding_all decide
  · rw [formatoPorcentaje_congr h]; with_unfolding_all decide

theorem c2_witness :
    formatoNumero (.str "hola") 0 = "0" ∧ formatoMoneda (.str "hola") "$" 0 = "$0" ∧
    formatoPorcentaje (.str "hola") 1 = "0,0%" :=
  c2_fail_soft_defaults (.str "hola") (by with_unfolding_all rfl)

/-- C5: every non-numeric input (empty string, null, undefined,
non-numeric text — exactly the inputs `parseFloat` maps to `NaN`) makes
each of the four operations return the same string as the number `0`
under the same options; all four operations are total functions in the
embedding, so none raises. -/
theorem c5_nonNumeric_as_zero :
    ∀ (v : JSVal), parseFloatJS v = none → ∀ (d : ℤ) (s : String),
      formatoNumero v d = formatoNumero (.num 0) d ∧
      formatoMoneda v s d = formatoMoneda (.num 0) s d ∧
      formatoPorcentaje v d = formatoPorcentaje (.num 0) d ∧
      formatoCompacto v = formatoCompacto (.num 0) := by
  intro v hv d s
  have h := coerceNum_of_nonNumeric hv
  exact ⟨formatoNumero_congr h d, formatoMoneda_congr h s d,
    formatoPorcentaje_congr h d, formatoCompacto_congr h⟩

theorem c5_witness :
    formatoNumero (.str "") 2 = formatoNumero (.num 0) 2 ∧
    formatoMoneda (.str "") "$" 2 = formatoMoneda (.num 0) "$" 2 ∧
    formatoPorcentaje (.str "") 2 = formatoPorcentaje (.num 0) 2 ∧
    formatoCompacto (.str "") = formatoCompacto (.num 0) :=
  c5_nonNumeric_as_zero (.str "") (by with_unfolding_all rfl) 2 "$"

/-- C6: `formatoMoneda(v, s, d)` is exactly `s ++ formatoNumero(v, d)` for
every value, symbol and decimal count, with the two spec examples. -/
theorem c6_moneda_is_symbol_prepend :
    (∀ (v : JSVal) (s : String) (d : ℤ), formatoMoneda v s d = s ++ formatoNumero v d) ∧
    formatoMoneda (.num 100000) "$" 0 = "$100.000" ∧
    formatoMoneda (.num 1500000.50) "$" 2 = "$1.500.000,50" := by
  refine ⟨fun v s d => rfl, ?_, ?_⟩ <;> with_unfolding_all decide

/-- C8: the declarative pass maps the matched elements one by one, and an
element whose `data-format` value is none of the four recognized modes is
returned completely unchanged (the `switch` has no `default` branch). -/
theorem c8_unrecognized_mode_untouched :
    (∀ (es : List Element), formatearElementos es = es.map formatearElemento) ∧
    ∀ (e : Element), e.dataFormat ≠ "numero" → e.dataFormat ≠ "moneda" →
      e.dataFormat ≠ "porcentaje" → e.dataFormat ≠ "compacto" →
      formatearElemento e = e := by
  refine ⟨fun es => rfl, ?_⟩
  intro e h1 h2 h3 h4
  simp [formatearElemento, h1, h2, h3, h4]

theorem c8_witness :
    formatearElemento ⟨"fecha", none, none, "123"⟩ = ⟨"fecha", none, none, "123"⟩ :=
  c8_unrecognized_mode_untouched.2 ⟨"fecha", none, none, "123"⟩
    (by decide) (by decide) (by decide) (by decide)

/-- C10 counterexample: the locale primitive does reject `-1` fraction
digits, but `formatoNumero(5, -1)` is `"5"` — the `decimales > 0` guard
routes negative counts to the zero-decimal branch, so the primitive is
never invoked with the negative count and the claimed `"0"` is not
returned. -/
theorem c10_counterexample :
    toLocaleStringEsCO 5 (-1) (-1) = .error () ∧
    formatoNumero (.num 5) (-1) = "5" ∧ ("5" : String) ≠ "0" :=
  ⟨by with_unfolding_all rfl, by with_unfolding_all decide, by decide⟩

/-- C10 (amended): `formatoNumero` is total outside the documented
precondition, but in two different ways: for `decimalPlaces > 100` the
primitive's `RangeError` is caught and `"0"` returned, while for
`decimalPlaces ≤ 0` the `decimales > 0` guard picks the zero-decimal
branch and the result is the ordinary 0-decimal formatting. -/
theorem c10_totality :
    (∀ (v : JSVal) (d : ℤ), 100 < d → formatoNumero v d = "0") ∧
    (∀ (v : JSVal) (d : ℤ), d ≤ 0 → formatoNumero v d = formatoNumero v 0) := by
  constructor
  · intro v d hd
    have h1 : (0 : ℤ) < d := by omega
    simp [formatoNumero, toLocaleStringEsCO, h1, hd]
  · intro v d hd
    have h1 : ¬ (0 : ℤ) < d := by omega
    have h2 : ¬ (0 : ℤ) < (0 : ℤ) := by omega
    simp [formatoNumero, h1, h2]

theorem c10_witness :
    formatoNumero (.num 3) 101 = "0" ∧
    formatoNumero (.num 3) (-2) = formatoNumero (.num 3) 0 :=
  ⟨c10_totality.1 (.num 3) 101 (by decide), c10_totality.2 (.num 3) (-2) (by decide)⟩

/-- C1 counterexample: an element with `data-format="porcentaje"` and no
`data-decimales` attribute is formatted with 0 decimal places — the
uniform `parseInt(...) || 0` fallback of line 165 — not with
`formatoPorcentaje`'s own default of 1: text `"5"` becomes `"5%"`,
whereas `formatoPorcentaje(5)` with its default gives `"5,0%"`. -/
theorem c1_counterexample :
    (formatearElemento ⟨"porcentaje", none, none, "5"⟩).textContent = "5%" ∧
    formatoPorcentaje (.num 5) 1 = "5,0%" ∧ ("5%" : String) ≠ "5,0%" := by
  with_unfolding_all decide

/-- C1 (amended): when `data-decimales` is missing or fails to parse, the
decimal count passed to the dispatched operation is `0` for every mode —
including `porcentaje`, which therefore does not get its own default
of 1. -/
theorem c1_decimales_fallback_zero :
    ∀ (e : Element), parseIntAttr e.dataDecimales = none →
      decimalesDe e = 0 ∧
      (e.dataFormat = "numero" →
        (formatearElemento e).textContent = formatoNumero (.num (valorDe e)) 0) ∧
      (e.dataFormat = "moneda" →
        (formatearElemento e).textContent =
          formatoMoneda (.num (valorDe e)) (simboloDe e) 0) ∧
      (e.dataFormat = "porcentaje" →
        (formatearElemento e).textContent = formatoPorcentaje (.num (valorDe e)) 0) := by
  intro e h
  have h0 : decimalesDe e = 0 := by simp [decimalesDe, h]
  refine ⟨h0, ?_, ?_, ?_⟩ <;> intro hf <;> simp [formatearElemento, hf, h0]

theorem c1_witness :
    decimalesDe ⟨"porcentaje", none, none, "0.855"⟩ = 0 ∧
    (formatearElemento ⟨"porcentaje", none, none, "0.855"⟩).textContent =
      formatoPorcentaje (.num (valorDe ⟨"porcentaje", none, none, "0.855"⟩)) 0 :=
  ⟨(c1_decimales_fallback_zero ⟨"porcentaje", none, none, "0.855"⟩ rfl).1,
   (c1_decimales_fallback_zero ⟨"porcentaje", none, none, "0.855"⟩ rfl).2.2.2 rfl⟩

/-- C9: when `parseFloat` extracts a numeric value from a leading numeric
run of a string (followed by arbitrary junk), each of the four operations
behaves as if called with that numeric value, and the declarative pass
coerces text content through the same parse; for `"12abc"` the result is
that of 12, not that of 0. -/
theorem c9_numeric_head_coercion :
    (∀ (s : String) (q : ℚ), parseFloatChars s.data = some q →
      ∀ (d : ℤ) (sym : String),
        formatoNumero (.str s) d = formatoNumero (.num q) d ∧
        formatoMoneda (.str s) sym d = formatoMoneda (.num q) sym d ∧
        formatoPorcentaje (.str s) d = formatoPorcentaje (.num q) d ∧
        formatoCompacto (.str s) = formatoCompacto (.num q) ∧
        ∀ (f : String) (dec sim : Option String), valorDe ⟨f, dec, sim, s⟩ = q) ∧
    formatoNumero (.str "12abc") 0 = "12" ∧
    formatoNumero (.str "3.5 kg") 1 = "3,5" ∧
    formatoNumero (.str "12abc") 0 ≠ formatoNumero (.num 0) 0 := by
  refine ⟨?_, ?_, ?_, ?_⟩
  · intro s q hq d sym
    have h : coerceNum (.str s) = coerceNum (.num q) := by
      simp [coerceNum, parseFloatJS, hq]
    exact ⟨formatoNumero_congr h d, formatoMoneda_congr h sym d,
      formatoPorcentaje_congr h d, formatoCompacto_congr h,
      fun f dec sim => by simp [valorDe, hq]⟩
  · with_unfolding_all decide
  · with_unfolding_all decide
  · with_unfolding_all decide

theorem c9_witness :
    formatoNumero (.str "12abc") 5 = formatoNumero (.num 12) 5 :=
  (c9_numeric_head_coercion.1 "12abc" 12 (by with_unfolding_all rfl) 5 "$").1

/-- C4: `formatoPorcentaje` multiplies the coerced value by 100 exactly
when it is strictly below 1, formats the resulting magnitude exactly as
`formatoNumero` would, and appends `'%'` directly; the boundary value 1
yields `"1,0%"`, and the two spec examples hold. -/
theorem c4_porcentaje_semantics :
    (∀ (v : JSVal) (d : ℤ), 0 ≤ d → d ≤ 100 →
      formatoPorcentaje v d =
        formatoNumero
          (.num (if coerceNum v < 1 then coerceNum v * 100 else coerceNum v)) d ++ "%") ∧
    formatoPorcentaje (.num 1) 1 = "1,0%" ∧
    formatoPorcentaje (.num 0.855) 1 = "85,5%" ∧
    formatoPorcentaje (.num 75) 0 = "75%" := by
  refine ⟨?_, ?_, ?_, ?_⟩
  · intro v d h0 h100
    have hcond : ¬(d < 0 ∨ 100 < d) := by omega
    by_cases hd : (0 : ℤ) < d
    · simp [formatoPorcentaje, formatoNumero, toLocaleStringEsCO, hd, hcond,
        coerceNum, parseFloatJS]
    · have hd0 : d = 0 := by omega
      subst hd0
      simp [formatoPorcentaje, formatoNumero, toLocaleStringEsCO,
        coerceNum, parseFloatJS]
  · with_unfolding_all decide
  · with_unfolding_all decide
  · with_unfolding_all decide

theorem data_mk (l : List Char) : (String.mk l).data = l := rfl

theorem natDigitsAux_lt (fuel : ℕ) : ∀ (n : ℕ), ∀ d ∈ natDigitsAux fuel n, d < 10 := by
  induction fuel with
  | zero => intro n; simp [natDigitsAux]
  | succ f ih =>
    intro n
    cases n with
    | zero => simp [natDigitsAux]
    | succ m =>
      intro d hd
      simp only [natDigitsAux, List.mem_cons] at hd
      rcases hd with h | h
      · subst h; exact Nat.mod_lt _ (by omega)
      · exact ih _ _ h

theorem digitToChar_isDigit {d : ℕ} (h : d < 10) : (digitToChar d).isDigit = true := by
  interval_cases d <;> decide

theorem natStr_all_digits (n : ℕ) : allDigits (natStr n).data := by
  intro c hc
  by_cases h : n = 0
  · subst h
    have h0 : (natStr 0).data = ['0'] := rfl
    rw [h0] at hc
    rw [List.mem_singleton.mp hc]
    decide
  · simp only [natStr, if_neg h, data_mk, List.mem_reverse, List.mem_map] at hc
    obtain ⟨d, hd, rfl⟩ := hc
    exact digitToChar_isDigit (natDigitsAux_lt _ _ _ hd)

theorem natStr_len_pos (n : ℕ) : 1 ≤ (natStr n).data.length := by
  cases n with
  | zero => decide
  | succ m =>
    simp [natStr, data_mk, natDigits, natDigitsAux]

theorem natDigitsAux_len (fuel : ℕ) : ∀ (n k : ℕ), n ≤ fuel → n < 10 ^ k →
    (natDigitsAux fuel n).length ≤ k := by
  induction fuel with
  | zero => intro n k _ _; simp [natDigitsAux]
  | succ f ih =>
    intro n k hn hk
    cases n with
    | zero => simp [natDigitsAux]
    | succ m =>
      cases k with
      | zero =>
        have h1 : (10 : ℕ) ^ 0 = 1 := rfl
        omega
      | succ j =>
        simp only [natDigitsAux, List.length_cons]
        have h1 : (m + 1) / 10 ≤ f := by omega
        have hpow : (10 : ℕ) ^ (j + 1) = 10 * 10 ^ j := by ring
        have h2 : (m + 1) / 10 < 10 ^ j := by omega
        have := ih _ j h1 h2
        omega

theorem natStr_len_le {n k : ℕ} (hk : 1 ≤ k) (h : n < 10 ^ k) :
    (natStr n).data.length ≤ k := by
  by_cases h0 : n = 0
  · subst h0; simpa using hk
  · simp only [natStr, if_neg h0, data_mk, List.length_reverse, List.length_map]
    exact natDigitsAux_len n n k (le_refl n) h

theorem padLeftZeros_data (k : ℕ) (s : String) :
    (padLeftZeros k s).data = List.replicate (k - s.length) '0' ++ s.data := by
  simp [padLeftZeros, String.data_append, data_mk]

theorem padLeftZeros_length {k : ℕ} {s : String} (h : s.data.length ≤ k) :
    (padLeftZeros k s).data.length = k := by
  have hs : s.length = s.data.length := rfl
  simp only [padLeftZeros_data, List.length_append, List.length_replicate]
  omega

theorem padLeftZeros_digits {k : ℕ} {s : String} (h : allDigits s.data) :
    allDigits (padLeftZeros k s).data := by
  intro c hc
  rw [padLeftZeros_data] at hc
  rcases List.mem_append.mp hc with h1 | h1
  · rw [List.eq_of_mem_replicate h1]; decide
  · exact h c h1

theorem joinSep_chars (sep : Char) :
    ∀ (L : List (List Char)) (c : Char),
      c ∈ joinSep sep L → c = sep ∨ ∃ l ∈ L, c ∈ l := by
  intro L
  induction L with
  | nil => simp [joinSep]
  | cons a rest ih =>
    cases rest with
    | nil =>
      intro c hc
      right
      exact ⟨a, by simp, by simpa [joinSep] using hc⟩
    | cons b rest2 =>
      intro c hc
      simp only [joinSep, List.mem_append, List.mem_cons] at hc
      rcases hc with h | h | h
      · right; exact ⟨a, by simp, h⟩
      · left; exact h
      · rcases ih c h with h' | ⟨l, hl, hcl⟩
        · left; exact h'
        · right; exact ⟨l, by simp [hl], hcl⟩

theorem toFixedQ_one_data (q : ℚ) :
    (toFixedQ q 1).data =
      (if q < 0 then "-" else "").data ++
      ((natStr ((⌊|q| * 10 ^ 1 + 1 / 2⌋).toNat / 10 ^ 1)).data ++
        ('.' :: (padLeftZeros 1 (natStr ((⌊|q| * 10 ^ 1 + 1 / 2⌋).toNat % 10 ^ 1))).data)) := by
  simp [toFixedQ, String.data_append]

/-- C7: `formatoCompacto` checks its thresholds from largest to smallest
with first match winning, uses `toFixed(1)` with the three suffixes, and
below 1000 falls back to the plain `toString` rendering; the `toFixed`
output uses `'.'` as its decimal point and never contains `','`. -/
theorem c7_compacto_thresholds :
    (∀ (v : JSVal), 1000000000 ≤ coerceNum v →
      formatoCompacto v = toFixedQ (coerceNum v / 1000000000) 1 ++ "B") ∧
    (∀ (v : JSVal), 1000000 ≤ coerceNum v → coerceNum v < 1000000000 →
      formatoCompacto v = toFixedQ (coerceNum v / 1000000) 1 ++ "M") ∧
    (∀ (v : JSVal), 1000 ≤ coerceNum v → coerceNum v < 1000000 →
      formatoCompacto v = toFixedQ (coerceNum v / 1000) 1 ++ "K") ∧
    (∀ (v : JSVal), coerceNum v < 1000 → formatoCompacto v = numToString (coerceNum v)) ∧
    (∀ (q : ℚ), ',' ∉ (toFixedQ q 1).data ∧ '.' ∈ (toFixedQ q 1).data) ∧
    formatoCompacto (.num 1500) = "1.5K" ∧
    formatoCompacto (.num 2500000) = "2.5M" ∧
    formatoCompacto (.num 999) = "999" := by
  refine ⟨?_, ?_, ?_, ?_, ?_, ?_, ?_, ?_⟩
  · intro v h
    simp [formatoCompacto, h]
  · intro v h h2
    simp [formatoCompacto, h, not_le.mpr h2]
  · intro v h h2
    have h3 : ¬ (1000000000 : ℚ) ≤ coerceNum v := not_le.mpr (h2.trans (by norm_num))
    simp [formatoCompacto, h, not_le.mpr h2, h3]
  · intro v h
    have h2 : ¬ (1000 : ℚ) ≤ coerceNum v := not_le.mpr h
    have h3 : ¬ (1000000 : ℚ) ≤ coerceNum v := not_le.mpr (h.trans (by norm_num))
    have h4 : ¬ (1000000000 : ℚ) ≤ coerceNum v := not_le.mpr (h.trans (by norm_num))
    simp [formatoCompacto, h2, h3, h4]
  · intro q
    constructor
    · intro hc
      rw [toFixedQ_one_data] at hc
      rcases List.mem_append.mp hc with h1 | h1
      · by_cases hq : q < 0 <;> simp [hq] at h1
      · rcases List.mem_append.mp h1 with h2 | h2
        · exact absurd (natStr_all_digits _ _ h2) (by decide)
        · rcases List.mem_cons.mp h2 with h3 | h3
          · exact absurd h3 (by decide)
          · exact absurd (padLeftZeros_digits (natStr_all_digits _) _ h3) (by decide)
    · rw [toFixedQ_one_data]
      exact List.mem_append_right _ (List.mem_append_right _ (List.mem_cons_self _ _))
  · with_unfolding_all decide
  · with_unfolding_all decide
  · with_unfolding_all decide

theorem c7_witness :
    formatoCompacto (.num 2000000000) =
      toFixedQ (coerceNum (.num 2000000000) / 1000000000) 1 ++ "B" :=
  c7_compacto_thresholds.1 (.num 2000000000) (by with_unfolding_all decide)

theorem str_length_eq (s : String) : s.length = s.data.length := rfl

theorem chunks3_flatten : ∀ (l : List Char), 3 ∣ l.length → (chunks3 l).flatten = l
  | [], _ => rfl
  | [a], h => by simp only [List.length_cons, List.length_nil] at h; omega
  | [a, b], h => by simp only [List.length_cons, List.length_nil] at h; omega
  | a :: b :: c :: rest, h => by
    simp only [chunks3, List.flatten_cons, List.cons_append, List.nil_append]
    have h3 : 3 ∣ rest.length := by simp only [List.length_cons] at h; omega
    rw [chunks3_flatten rest h3]

theorem chunks3_length : ∀ (l : List Char), 3 ∣ l.length → ∀ c ∈ chunks3 l, c.length = 3
  | [], _ => by simp [chunks3]
  | [a], h => by simp only [List.length_cons, List.length_nil] at h; omega
  | [a, b], h => by simp only [List.length_cons, List.length_nil] at h; omega
  | a :: b :: c :: rest, h => by
    intro x hx
    simp only [chunks3, List.mem_cons] at hx
    rcases hx with rfl | hx
    · rfl
    · have h3 : 3 ∣ rest.length := by simp only [List.length_cons] at h; omega
      exact chunks3_length rest h3 x hx

theorem headLen_bounds (n : ℕ) (h : 1 ≤ n) :
    1 ≤ headLen n ∧ headLen n ≤ 3 ∧ headLen n ≤ n ∧ 3 ∣ (n - headLen n) := by
  unfold headLen
  split <;> omega

theorem clusters_flatten (l : List Char) (h : l ≠ []) : (clusters l).flatten = l := by
  have h1 : 0 < l.length := List.length_pos.mpr h
  obtain ⟨_, _, _, hdvd⟩ := headLen_bounds l.length h1
  simp only [clusters, List.flatten_cons]
  rw [chunks3_flatten _ (by rw [List.length_drop]; exact hdvd)]
  exact List.take_append_drop _ l

theorem clusters_subset {l : List Char} (h : l ≠ []) {c : List Char}
    (hc : c ∈ clusters l) {x : Char} (hx : x ∈ c) : x ∈ l := by
  rw [← clusters_flatten l h]
  exact List.mem_flatten.mpr ⟨c, hc, hx⟩

theorem clusters_head_len (l : List Char) (h : l ≠ []) :
    1 ≤ ((clusters l).headD []).length ∧ ((clusters l).headD []).length ≤ 3 := by
  have h1 : 0 < l.length := List.length_pos.mpr h
  obtain ⟨hb1, hb3, hbn, _⟩ := headLen_bounds l.length h1
  simp only [clusters, List.headD_cons, List.length_take]
  omega

theorem clusters_tail_len (l : List Char) (h : l ≠ []) :
    ∀ c ∈ (clusters l).tail, c.length = 3 := by
  have h1 : 0 < l.length := List.length_pos.mpr h
  obtain ⟨_, _, _, hdvd⟩ := headLen_bounds l.length h1
  simp only [clusters, List.tail_cons]
  exact chunks3_length _ (by rw [List.length_drop]; exact hdvd)

theorem clusters_len_sum (l : List Char) (h : l ≠ []) :
    ((clusters l).map List.length).sum = l.length := by
  rw [← List.length_flatten, clusters_flatten l h]

theorem esCOFormat_data (q : ℚ) (d : ℕ) :
    (esCOFormat q d).data =
      (if q < 0 then "-" else "").data ++
      ((if 5 ≤ (natStr ((⌊|q| * 10 ^ d + 1 / 2⌋).toNat / 10 ^ d)).length
        then joinSep '.'
          (clusters (natStr ((⌊|q| * 10 ^ d + 1 / 2⌋).toNat / 10 ^ d)).data)
        else (natStr ((⌊|q| * 10 ^ d + 1 / 2⌋).toNat / 10 ^ d)).data) ++
      (if d = 0 then []
       else ',' :: (padLeftZeros d (natStr ((⌊|q| * 10 ^ d + 1 / 2⌋).toNat % 10 ^ d))).data)) := by
  unfold esCOFormat
  by_cases hd : d = 0 <;>
    simp [hd, String.data_append, data_mk, List.append_assoc, apply_ite String.data]

theorem esCOFormat_shape (q : ℚ) (d : ℕ) : groupedAmendedC3 (esCOFormat q d) d := by
  have h1 : 1 ≤ (natStr ((⌊|q| * 10 ^ d + 1 / 2⌋).toNat / 10 ^ d)).data.length :=
    natStr_len_pos _
  have hne : (natStr ((⌊|q| * 10 ^ d + 1 / 2⌋).toNat / 10 ^ d)).data ≠ [] := by
    intro hnil; rw [hnil] at h1; simp at h1
  have hdig : allDigits (natStr ((⌊|q| * 10 ^ d + 1 / 2⌋).toNat / 10 ^ d)).data :=
    natStr_all_digits _
  have hfrac : if d = 0 then
        (if d = 0 then ([] : List Char)
         else ',' :: (padLeftZeros d (natStr ((⌊|q| * 10 ^ d + 1 / 2⌋).toNat % 10 ^ d))).data) = []
      else ∃ ds,
        (if d = 0 then ([] : List Char)
         else ',' :: (padLeftZeros d (natStr ((⌊|q| * 10 ^ d + 1 / 2⌋).toNat % 10 ^ d))).data) =
          ',' :: ds ∧ allDigits ds ∧ ds.length = d := by
    by_cases hd : d = 0
    · simp [hd]
    · simp only [if_neg hd]
      refine ⟨_, rfl, padLeftZeros_digits (natStr_all_digits _), ?_⟩
      refine padLeftZeros_length (natStr_len_le (by omega) ?_)
      exact Nat.mod_lt _ (Nat.pos_pow_of_pos d (by omega))
  have hsgn : ((if q < 0 then "-" else "") : String).data = [] ∨
      ((if q < 0 then "-" else "") : String).data = ['-'] := by
    by_cases hq : q < 0 <;> simp [hq]
  have hsgn_nc : ∀ c ∈ ((if q < 0 then "-" else "") : String).data, c ≠ ',' := by
    intro c hc
    rcases hsgn with h | h <;> rw [h] at hc
    · cases hc
    · rw [List.mem_singleton.mp hc]; decide
  by_cases h5 : 5 ≤ (natStr ((⌊|q| * 10 ^ d + 1 / 2⌋).toNat / 10 ^ d)).length
  · refine ⟨(if q < 0 then "-" else "").data,
      clusters (natStr ((⌊|q| * 10 ^ d + 1 / 2⌋).toNat / 10 ^ d)).data,
      (if d = 0 then []
       else ',' :: (padLeftZeros d (natStr ((⌊|q| * 10 ^ d + 1 / 2⌋).toNat % 10 ^ d))).data),
      ?_, hsgn, ?_, ?_, ?_, ?_, hfrac⟩
    · rw [esCOFormat_data, if_pos h5, List.append_assoc]
    · simp [clusters]
    · intro c hc x hx
      exact hdig x (clusters_subset hne hc hx)
    · right
      refine ⟨?_, (clusters_head_len _ hne).1, (clusters_head_len _ hne).2,
        clusters_tail_len _ hne⟩
      rw [clusters_len_sum _ hne]
      rw [str_length_eq] at h5
      exact h5
    · intro c hc
      rcases List.mem_append.mp hc with h | h
      · exact hsgn_nc c h
      · rcases joinSep_chars '.' _ c h with rfl | ⟨l, hl, hcl⟩
        · decide
        · have := hdig c (clusters_subset hne hl hcl)
          intro hcomma
          rw [hcomma] at this
          exact absurd this (by decide)
  · refine ⟨(if q < 0 then "-" else "").data,
      [(natStr ((⌊|q| * 10 ^ d + 1 / 2⌋).toNat / 10 ^ d)).data],
      (if d = 0 then []
       else ',' :: (padLeftZeros d (natStr ((⌊|q| * 10 ^ d + 1 / 2⌋).toNat % 10 ^ d))).data),
      ?_, hsgn, ?_, ?_, ?_, ?_, hfrac⟩
    · rw [esCOFormat_data, if_neg h5, List.append_assoc]
      rfl
    · simp
    · intro c hc
      rw [List.mem_singleton.mp hc]
      exact hdig
    · left
      refine ⟨_, rfl, h1, ?_⟩
      rw [str_length_eq] at h5
      omega
    · intro c hc
      rcases List.mem_append.mp hc with h | h
      · exact hsgn_nc c h
      · have : c ∈ (natStr ((⌊|q| * 10 ^ d + 1 / 2⌋).toNat / 10 ^ d)).data := h
        intro hcomma
        rw [hcomma] at this
        exact absurd (hdig _ this) (by decide)

theorem formatoNumero_eq_esCOFormat (q : ℚ) (d : ℤ) (h0 : 0 ≤ d) (h1 : d ≤ 100) :
    formatoNumero (.num q) d = esCOFormat q d.toNat := by
  have hcond : ¬(d < 0 ∨ 100 < d) := by omega
  by_cases hd : (0 : ℤ) < d
  · simp [formatoNumero, toLocaleStringEsCO, hd, hcond, coerceNum, parseFloatJS]
  · have hd0 : d = 0 := by omega
    subst hd0
    simp [formatoNumero, toLocaleStringEsCO, coerceNum, parseFloatJS]

/-- C3 counterexample: the claim fails at two inputs.  `formatoNumero(1000, 0)`
is `"1000"` — es-CO (CLDR `minimumGroupingDigits = 2`) does not group a
four-digit integer, so no decomposition into clusters of at most three
digits exists.  And `formatoNumero(5, 101)` is `"0"` — the primitive
rejects 101 fraction digits and the catch returns `"0"`, which has no
`','` although the claim demands 101 digits after one. -/
theorem c3_counterexample :
    (formatoNumero (.num 1000) 0 = "1000" ∧
      ¬ groupedClaimC3 (formatoNumero (.num 1000) 0) 0) ∧
    (formatoNumero (.num 5) 101 = "0" ∧
      ¬ groupedClaimC3 (formatoNumero (.num 5) 101) 101) := by
  have e1 : formatoNumero (.num 1000) 0 = "1000" := by with_unfolding_all decide
  have e2 : formatoNumero (.num 5) 101 = "0" := by with_unfolding_all decide
  refine ⟨⟨e1, ?_⟩, ⟨e2, ?_⟩⟩
  · rw [e1]
    rintro ⟨sgn, cls, frac, heq, hsgn, hne, _, _, hh3, _, _, hfrac⟩
    rw [if_pos rfl] at hfrac
    subst hfrac
    have hdata : ("1000" : String).data = ['1', '0', '0', '0'] := rfl
    rw [hdata, List.append_nil] at heq
    rcases hsgn with rfl | rfl
    · rw [List.nil_append] at heq
      cases cls with
      | nil => exact hne rfl
      | cons c0 rest =>
        cases rest with
        | nil =>
          simp only [joinSep] at heq
          have h4 : c0.length = 4 := by rw [← heq]; rfl
          simp only [List.headD_cons] at hh3
          omega
        | cons c1 rest2 =>
          have hdot : '.' ∈ joinSep '.' (c0 :: c1 :: rest2) := by
            simp [joinSep]
          rw [← heq] at hdot
          simp at hdot
    · simp at heq
  · rw [e2]
    rintro ⟨sgn, cls, frac, heq, _, _, _, _, _, _, _, hfrac⟩
    rw [if_neg (by omega)] at hfrac
    obtain ⟨ds, rfl, _, _⟩ := hfrac
    have hmem : ',' ∈ sgn ++ joinSep '.' cls ++ ',' :: ds :=
      List.mem_append_right _ (List.mem_cons_self _ _)
    rw [← heq] at hmem
    simp at hmem

/-- C3 (amended): for every rational value and every decimal count `d`
with `0 ≤ d ≤ 100`, `formatoNumero` produces an optional minus sign, an
integer part, and — exactly when `d > 0` — a `','` followed by exactly
`d` digits; the integer part is grouped in clusters of exactly three
digits separated by `'.'` with a leading cluster of 1–3 digits whenever
it has at least five digits, and is a single ungrouped run of 1–4 digits
otherwise (es-CO suppresses grouping below five integer digits). -/
theorem c3_grouping_amended :
    ∀ (q : ℚ) (d : ℤ), 0 ≤ d → d ≤ 100 →
      groupedAmendedC3 (formatoNumero (.num q) d) d.toNat := by
  intro q d h0 h1
  rw [formatoNumero_eq_esCOFormat q d h0 h1]
  exact esCOFormat_shape q d.toNat

theorem c3_witness :
    groupedAmendedC3 (formatoNumero (.num 1234.56) 2) ((2 : ℤ).toNat) :=
  c3_grouping_amended 1234.56 2 (by decide) (by decide)

theorem c4_witness :
    formatoPorcentaje (.num 2) 0 =
      formatoNumero
        (.num (if coerceNum (.num 2) < 1 then coerceNum (.num 2) * 100
               else coerceNum (.num 2))) 0 ++ "%" :=
  c4_porcentaje_semantics.1 (.num 2) 0 (by decide) (by decide)

end Sugipq
